import Mathlib

/-!
Verification of the ConfigManager typed-configuration layer
(`configmanager/meta.py`).

The development shallowly embeds the field-conversion and schema-validation
engine: declared field types become the inductive `PyType`, runtime field
values become `PyVal`, raw parsed data becomes association lists of strings,
and every fallible operation returns `Except PyErr`.  Python exceptions are
modelled structurally: the payload of each `PyErr` constructor records the
names the corresponding exception message reports.
-/

set_option maxRecDepth 4000

deriving instance DecidableEq for Except

/-- Scalar field types supported by the embedding: `bool`, `int`, `str`. -/
inductive PyBaseType where
  | bool
  | int
  | str
deriving DecidableEq

/-- A declared field type: either a scalar type or `Optional[scalar]`
(a `Union` with `NoneType`). -/
inductive PyType where
  | base (t : PyBaseType)
  | opt (t : PyBaseType)
deriving DecidableEq

/-- A runtime Python value held by a dataclass field: `None`, a bool, an
arbitrary-precision int, or a string. -/
inductive PyVal where
  | none
  | vBool (b : Bool)
  | vInt (i : Int)
  | vStr (s : String)
deriving DecidableEq

/-- `True` iff the value is Python `None`. -/
def PyVal.isAbsent : PyVal → Bool
  | .none => true
  | _ => false

/-- The `section_name` class attribute: either the `AUTO_NAME` sentinel
object or a fixed string. -/
inductive SectionName where
  | auto
  | fixed (name : String)
deriving DecidableEq

/-- One dataclass field declaration of a `ConfigSectionBase` subclass:
its name and its annotated type.  Fields follow the library's canonical
pattern of defaulting to `None`, with required-ness enforced by
`CheckNoneNonOptionalFieldsMixin` at `__post_init__` time. -/
structure FieldDecl where
  name : String
  type : PyType
deriving DecidableEq

/-- A `ConfigSectionBase` subclass: its `section_name` class attribute and
its ordered dataclass fields. -/
structure SectionSchema where
  sectionName : SectionName
  fields : List FieldDecl
deriving DecidableEq

/-- One field of a `ConfigBase` subclass: the field name and its annotated
`ConfigSectionBase` subclass.  (Fields of non-section type are rejected by
`config_dataclass`; the typed embedding makes them unrepresentable.) -/
structure ConfigField where
  name : String
  sect : SectionSchema
deriving DecidableEq

/-- A `ConfigBase` subclass: its ordered section fields. -/
structure ConfigSchema where
  fields : List ConfigField
deriving DecidableEq

/-- A fully initialized section instance: one value per declared field, in
declaration order. -/
abbrev SectionVal := List (String × PyVal)

/-- A `configparser` section as the core consumes it: a carried name (which
for a `SectionProxy` built by the library may be the `AUTO_NAME` sentinel)
plus an ordered mapping of string keys to string values. -/
structure RawSection where
  name : SectionName
  data : List (String × String)
deriving DecidableEq

/-- The state of a `configparser.RawConfigParser`: ordered section name to
ordered key/value mapping. -/
abbrev ParserState := List (String × List (String × String))

/-- The contents of one `.ini` file, as the external parser delivers it. -/
abbrev FileContent := List (String × List (String × String))

/-- The file system visible to `load`: path to parsed file contents. -/
abbrev FileSys := List (String × FileContent)

/-- The `path` argument accepted by `ConfigBase.load`: absent, a single
path, or a sequence of paths. -/
inductive PathArg where
  | noPath
  | single (p : String)
  | seq (ps : List String)

/-- Structural model of the exceptions raised by `meta.py`.  Each payload
records the names the exception message carries. -/
inductive PyErr where
  | missingRequiredField (name : String)
  | unknownFieldNames (names : List String)
  | sectionNameMismatch (clsName rawName : SectionName)
  | schemaNameMismatch (names : List String)
  | valueError
  | typeNotCallable
  | fileNotFound (p : String)
  | noConfigPath
  | autoNameAssertion
  | ioError (p : String)
deriving DecidableEq

/-- `is_optional_type` (meta.py): a type annotation is optional iff it is a
`Union` whose arguments include `NoneType`. -/
def is_optional_type : PyType → Bool
  | .base _ => false
  | .opt _ => true

/-- The decimal digit characters, indexed `0`–`9`. -/
def digitChar (d : Nat) : Char :=
  match d with
  | 0 => '0' | 1 => '1' | 2 => '2' | 3 => '3' | 4 => '4'
  | 5 => '5' | 6 => '6' | 7 => '7' | 8 => '8' | _ => '9'

/-- Numeric value of a decimal digit character. -/
def digitVal (c : Char) : Nat := c.toNat - 48

/-- Decimal character spelling of a natural number, most significant digit
first (`str(n)` for a nonnegative Python int). -/
def natCharsFull (n : Nat) : List Char :=
  if n = 0 then ['0'] else ((Nat.digits 10 n).map digitChar).reverse

/-- `str(i)` for a Python int: optional leading minus sign, then decimal
digits. -/
def intChars (i : Int) : List Char :=
  if i < 0 then '-' :: natCharsFull i.natAbs else natCharsFull i.natAbs

/-- `str(i)` for a Python int, packaged as a string. -/
def pyStrOfInt (i : Int) : String := ⟨intChars i⟩

/-- Parse an unsigned run of decimal digits; `Option.none` models the
`ValueError` CPython's `int()` raises on an empty or non-digit run. -/
def natFromChars? (cs : List Char) : Option Nat :=
  if cs = [] then Option.none
  else if cs.all Char.isDigit then
    some (cs.foldl (fun a c => a * 10 + digitVal c) 0)
  else Option.none

/-- CPython `int(s)` restricted to optionally signed ASCII decimal strings
(whitespace trimming and underscore separators are not exercised by this
development and are omitted): `Option.none` models `ValueError`. -/
def intFromChars : List Char → Option Int
  | [] => Option.none
  | c :: cs =>
    if c = '-' then
      match natFromChars? cs with
      | some n => some (-(n : Int))
      | Option.none => Option.none
    else if c = '+' then
      match natFromChars? cs with
      | some n => some ((n : Int))
      | Option.none => Option.none
    else
      match natFromChars? (c :: cs) with
      | some n => some ((n : Int))
      | Option.none => Option.none

/-- CPython `int(s)` on a string. -/
def pyIntOfString (s : String) : Option Int := intFromChars s.data

/-- Python `str(v)` for the embedded value universe. -/
def pyStr : PyVal → String
  | .none => "None"
  | .vBool true => "True"
  | .vBool false => "False"
  | .vInt i => pyStrOfInt i
  | .vStr s => s

/-- The truthy-token tuple `('1', 1, 'true', 'True', 'TRUE')` from
`convert_field_types_from_strings`.  The int member `1` never equals a raw
string value delivered by configparser, so only the string members are
representable. -/
def truthyTokens : List String := ["1", "true", "True", "TRUE"]

/-- The generic conversion path `field.type(raw_string)`: calling the
declared type on the raw string.  `bool(s)` is string truthiness,
`int(s)` parses or raises `ValueError`, `str(s)` is the identity, and
`typing.Optional[...]` is not callable (`TypeError`). -/
def callTypeConstructor : PyType → String → Except PyErr PyVal
  | .base .bool, s => .ok (.vBool (s != ""))
  | .base .int, s =>
    match pyIntOfString s with
    | some n => .ok (.vInt n)
    | Option.none => .error .valueError
  | .base .str, s => .ok (.vStr s)
  | .opt _, _ => .error .typeNotCallable

/-- Per-field conversion step of `convert_field_types_from_strings`:
a field annotated exactly `bool` tests membership in the truthy tokens;
every other annotation is invoked as a one-argument constructor. -/
def convertValue (t : PyType) (s : String) : Except PyErr PyVal :=
  if t = .base .bool then .ok (.vBool (truthyTokens.contains s))
  else callTypeConstructor t s

/-- The conversion loop of `convert_field_types_from_strings`: walk the
declared fields in order, converting those present in the source data. -/
def convertFields : List FieldDecl → List (String × String) → Except PyErr SectionVal
  | [], _ => .ok []
  | f :: fs, src =>
    match src.lookup f.name with
    | some raw =>
      match convertValue f.type raw with
      | .error e => .error e
      | .ok v =>
        match convertFields fs src with
        | .error e => .error e
        | .ok rest => .ok ((f.name, v) :: rest)
    | Option.none => convertFields fs src

/-- The local `unknown_source_nameset` of
`convert_field_types_from_strings`: the set difference between the source
keys and the declared field names (`set(source_data.keys()) -
cls_field_nameset`), as a duplicate-free list. -/
def unknownKeys (fields : List FieldDecl) (src : List (String × String)) :
    List String :=
  ((src.map Prod.fst).filter (fun k => !(fields.map FieldDecl.name).contains k)).dedup

/-- `ConfigSectionBase.convert_field_types_from_strings` (meta.py): reject
source keys that are not declared field names (`KeyError` listing the whole
set of offenders), then convert each declared field present in the source. -/
def convert_field_types_from_strings (fields : List FieldDecl)
    (src : List (String × String)) : Except PyErr SectionVal :=
  if (unknownKeys fields src).isEmpty then convertFields fields src
  else .error (.unknownFieldNames (unknownKeys fields src))

/-- The value `getattr(self, field.name, None)` ends up with when the
dataclass is constructed from the keyword mapping `provided` (unprovided
fields take the canonical default `None`). -/
def fieldValue (provided : SectionVal) (f : FieldDecl) : PyVal :=
  match provided.lookup f.name with
  | some v => v
  | Option.none => PyVal.none

/-- The loop of `CheckNoneNonOptionalFieldsMixin.__post_init__`: scan the
declared fields in order and report the first one that is `None` without an
optional annotation.  Shared by section and config records. -/
def findMissingRequired {α : Type} (fields : List α) (isAbsent : α → Bool)
    (isOpt : α → Bool) : Option α :=
  fields.find? (fun f => isAbsent f && !isOpt f)

/-- Constructing a section instance `cls(**provided)`:
`ConfigSectionBase.__post_init__` asserts `section_name` is no longer the
`AUTO_NAME` sentinel, then the mixin check rejects the first required field
holding `None`.  On success the instance carries one value per declared
field in declaration order. -/
def mkSectionInstance (schema : SectionSchema) (provided : SectionVal) :
    Except PyErr SectionVal :=
  if schema.sectionName = .auto then .error .autoNameAssertion
  else
    match findMissingRequired schema.fields
        (fun f => (fieldValue provided f).isAbsent)
        (fun f => is_optional_type f.type) with
    | some f => .error (.missingRequiredField f.name)
    | Option.none => .ok (schema.fields.map (fun f => (f.name, fieldValue provided f)))

/-- `ConfigSectionBase.from_config_section` (meta.py): require the raw
section's carried name to equal the class' `section_name`, convert the raw
data, then construct the instance. -/
def from_config_section (schema : SectionSchema) (raw : RawSection) :
    Except PyErr SectionVal :=
  if schema.sectionName ≠ raw.name then
    .error (.sectionNameMismatch schema.sectionName raw.name)
  else
    match convert_field_types_from_strings schema.fields raw.data with
    | .error e => .error e
    | .ok converted => mkSectionInstance schema converted

/-- `ConfigSectionBase.to_config_section` (meta.py): build a raw section
named by the class' `section_name` whose data stringifies every field of
`dataclasses.asdict(self)` in declaration order — no field is skipped. -/
def to_config_section (schema : SectionSchema) (inst : SectionVal) : RawSection :=
  ⟨schema.sectionName, inst.map (fun p => (p.1, pyStr p.2))⟩

/-- `True` when the field's section type declares a fixed name different
from the field's own name — the offence `config_dataclass` batches into its
`ValueError`. -/
def fieldNameMismatch (fd : ConfigField) : Bool :=
  match fd.sect.sectionName with
  | .fixed n => n != fd.name
  | .auto => false

/-- The stamping loop of `config_dataclass`: replace an `AUTO_NAME` section
name by the owning field's name. -/
def stampField (fd : ConfigField) : ConfigField :=
  match fd.sect.sectionName with
  | .auto => ⟨fd.name, ⟨.fixed fd.name, fd.sect.fields⟩⟩
  | .fixed _ => fd

/-- The local `mismatched_field_names` of `config_dataclass`: the names of
the fields whose section type declares a fixed name different from the
field's own name, as a duplicate-free list. -/
def mismatchedNames (cfg : ConfigSchema) : List String :=
  ((cfg.fields.filter fieldNameMismatch).map ConfigField.name).dedup

/-- `config_dataclass` (meta.py), the schema-preparation decorator: collect
every field whose fixed section name differs from the field name and raise
one `ValueError` naming them all; otherwise stamp each `AUTO_NAME` section
with its field's name.  (The preceding field-type check is made
unrepresentable by the typed embedding.)  The Python original mutates class
attributes in place; the embedding returns the prepared schema. -/
def config_dataclass (cfg : ConfigSchema) : Except PyErr ConfigSchema :=
  if (mismatchedNames cfg).isEmpty then .ok ⟨cfg.fields.map stampField⟩
  else .error (.schemaNameMismatch (mismatchedNames cfg))

/-- An initialized `ConfigBase` instance: its schema, one section instance
per field, the retained parser state, and the retained `_config_path`. -/
structure ConfigInstance where
  schema : ConfigSchema
  sections : List (String × SectionVal)
  parserState : ParserState
  config_path : Option String
deriving DecidableEq

/-- Update an association list at a key, appending when absent — how the
embedding renders `parser[name] = value` style mutation. -/
def updateAssoc {β : Type} : List (String × β) → String → β → List (String × β)
  | [], k, v => [(k, v)]
  | p :: ps, k, v => if p.1 = k then (k, v) :: ps else p :: updateAssoc ps k v

/-- `parser.read(path)` on one already-tokenized file: merge each file
section into the parser state key-by-key, later values overriding. -/
def parserReadFile (ps : ParserState) (content : FileContent) : ParserState :=
  content.foldl
    (fun st sec =>
      let cur := (st.lookup sec.1).getD []
      updateAssoc st sec.1 (sec.2.foldl (fun m kv => updateAssoc m kv.1 kv.2) cur))
    ps

/-- Constructing a config instance `cls(**sections, config_parser=...,
config_path=...)`: the mixin check rejects the first section field holding
`None` (a section annotation is never optional), then
`ConfigBase.__post_init__` stores the parser and assigns
`self._config_path = None` — the `config_path` init-only argument is
received but never stored (meta.py line 230). -/
def mkConfigInstance (cfg : ConfigSchema) (provided : List (String × SectionVal))
    (ps : ParserState) (config_path : Option String) : Except PyErr ConfigInstance :=
  match findMissingRequired cfg.fields
      (fun fd => (provided.lookup fd.name).isNone) (fun _ => false) with
  | some fd => .error (.missingRequiredField fd.name)
  | Option.none =>
    let _ := config_path
    .ok ⟨cfg, provided, ps, Option.none⟩

/-- `ConfigBase.load` (meta.py): normalize the path argument (a lone
explicit path is remembered as `config_path`), check existence of and read
each path in order, then build each declared section field from the parser
section of the same name — or construct it bare when absent — and assemble
the instance. -/
def ConfigBase.load (cfg : ConfigSchema) (path : PathArg) (fs : FileSys) :
    Except PyErr ConfigInstance := do
  let pathsAndRetained : List String × Option String :=
    match path with
    | .noPath => ([], Option.none)
    | .single p => ([p], some p)
    | .seq ps => (ps, Option.none)
  let parser ← pathsAndRetained.1.foldlM
    (fun st p =>
      match fs.lookup p with
      | some content => .ok (parserReadFile st content)
      | Option.none => .error (.fileNotFound p))
    ([] : ParserState)
  let sections ← cfg.fields.mapM
    (fun fd =>
      match parser.lookup fd.name with
      | some raw =>
        (fun v => (fd.name, v)) <$> from_config_section fd.sect ⟨.fixed fd.name, raw⟩
      | Option.none => (fun v => (fd.name, v)) <$> mkSectionInstance fd.sect [])
  mkConfigInstance cfg sections parser pathsAndRetained.2

/-- The section instance stored under a config field name. -/
def configFieldValue (c : ConfigInstance) (name : String) : SectionVal :=
  (c.sections.lookup name).getD []

/-- The stamping loop of `ConfigBase.save` (meta.py lines 281–284): write
the stringified raw section of every declared section field into the
retained parser state, in declaration order. -/
def stampAllSections (c : ConfigInstance) : ParserState :=
  c.schema.fields.foldl
    (fun ps fd =>
      updateAssoc ps fd.name (to_config_section fd.sect (configFieldValue c fd.name)).data)
    c.parserState

/-- `ConfigBase.save` (meta.py): resolve the path from the argument or the
stored `_config_path`, failing with `ValueError` when both are `None`; then
stamp every section into the retained parser state; only then open the
destination file and write (`writable` abstracts whether the open/write
succeeds).  The returned instance is the post-call in-memory state. -/
def ConfigBase.save (c : ConfigInstance) (path : Option String)
    (writable : String → Bool) : ConfigInstance × Except PyErr Unit :=
  let resolved : Option String :=
    match path with
    | some p => some p
    | Option.none => c.config_path
  match resolved with
  | Option.none => (c, .error .noConfigPath)
  | some p =>
    let c' := { c with parserState := stampAllSections c }
    if writable p then (c', .ok ()) else (c', .error (.ioError p))

/-- A value is well-typed for a declared annotation: scalar annotations
demand the matching value kind; optional annotations also tolerate `None`. -/
def wellTypedVal : PyType → PyVal → Bool
  | .base .bool, .vBool _ => true
  | .base .int, .vInt _ => true
  | .base .str, .vStr _ => true
  | .opt _, .none => true
  | .opt .bool, .vBool _ => true
  | .opt .int, .vInt _ => true
  | .opt .str, .vStr _ => true
  | _, _ => false

/-! ### Decimal printing/parsing round-trip -/

lemma digitVal_digitChar {d : Nat} (hd : d < 10) : digitVal (digitChar d) = d := by
  interval_cases d <;> rfl

lemma isDigit_digitChar {d : Nat} (hd : d < 10) : (digitChar d).isDigit = true := by
  interval_cases d <;> rfl

lemma natCharsFull_ne_nil (n : Nat) : natCharsFull n ≠ [] := by
  unfold natCharsFull
  split
  · simp
  · next h =>
    simp only [ne_eq, List.reverse_eq_nil_iff]
    intro hmap
    exact Nat.digits_ne_nil_iff_ne_zero.mpr h (List.map_eq_nil_iff.mp hmap)

lemma mem_natCharsFull_isDigit {n : Nat} {c : Char} (hc : c ∈ natCharsFull n) :
    c.isDigit = true := by
  unfold natCharsFull at hc
  split at hc
  · simp at hc
    subst hc
    rfl
  · rw [List.mem_reverse] at hc
    obtain ⟨d, hd, rfl⟩ := List.mem_map.mp hc
    exact isDigit_digitChar (Nat.digits_lt_base (by norm_num) hd)

lemma foldr_digits_eq_ofDigits (L : List Nat) :
    L.foldr (fun d a => a * 10 + d) 0 = Nat.ofDigits 10 L := by
  induction L with
  | nil => simp [Nat.ofDigits_nil]
  | cons d L ih =>
    simp only [List.foldr_cons, Nat.ofDigits_cons, ih]
    ring

lemma natFromChars_natCharsFull (n : Nat) : natFromChars? (natCharsFull n) = some n := by
  by_cases h0 : n = 0
  · subst h0
    decide
  · have hall : (natCharsFull n).all Char.isDigit = true := by
      rw [List.all_eq_true]
      intro c hc
      exact mem_natCharsFull_isDigit hc
    unfold natFromChars?
    rw [if_neg (natCharsFull_ne_nil n), if_pos hall]
    congr 1
    unfold natCharsFull
    rw [if_neg h0, List.foldl_reverse, List.foldr_map]
    rw [List.foldr_ext _ (fun d a => a * 10 + d) 0
      (fun d hd a => by rw [digitVal_digitChar (Nat.digits_lt_base (by norm_num) hd)])]
    rw [foldr_digits_eq_ofDigits, Nat.ofDigits_digits]

lemma intFromChars_intChars (i : Int) : intFromChars (intChars i) = some i := by
  by_cases hneg : i < 0
  · unfold intChars
    rw [if_pos hneg]
    show intFromChars ('-' :: natCharsFull i.natAbs) = some i
    simp [intFromChars, natFromChars_natCharsFull]
    rw [abs_of_neg hneg, neg_neg]
  · unfold intChars
    rw [if_neg hneg]
    rcases hcs : natCharsFull i.natAbs with _ | ⟨c, cs⟩
    · exact absurd hcs (natCharsFull_ne_nil _)
    · have hdg : c.isDigit = true :=
        mem_natCharsFull_isDigit (hcs ▸ List.mem_cons_self c cs)
      have hc1 : ¬(c = '-') := fun h => by rw [h] at hdg; exact absurd hdg (by decide)
      have hc2 : ¬(c = '+') := fun h => by rw [h] at hdg; exact absurd hdg (by decide)
      show intFromChars (c :: cs) = some i
      simp only [intFromChars, if_neg hc1, if_neg hc2, ← hcs, natFromChars_natCharsFull]
      rw [Int.natAbs_of_nonneg (le_of_not_lt hneg)]

/-! ### Conversion lemmas -/

lemma convertValue_pyStr_roundtrip {t : PyType} {v : PyVal}
    (hsupp : t = .base .bool ∨ t = .base .int ∨ t = .base .str)
    (hwt : wellTypedVal t v = true) :
    convertValue t (pyStr v) = .ok v := by
  rcases hsupp with rfl | rfl | rfl
  · cases v with
    | vBool b => cases b <;> decide
    | none => simp [wellTypedVal] at hwt
    | vInt i => simp [wellTypedVal] at hwt
    | vStr s => simp [wellTypedVal] at hwt
  · cases v with
    | vInt i =>
      show convertValue (.base .int) (pyStrOfInt i) = .ok (.vInt i)
      have hp : pyIntOfString (pyStrOfInt i) = some i := intFromChars_intChars i
      simp [convertValue, callTypeConstructor, hp]
    | none => simp [wellTypedVal] at hwt
    | vBool b => simp [wellTypedVal] at hwt
    | vStr s => simp [wellTypedVal] at hwt
  · cases v with
    | vStr s => rfl
    | none => simp [wellTypedVal] at hwt
    | vBool b => simp [wellTypedVal] at hwt
    | vInt i => simp [wellTypedVal] at hwt

lemma convertValue_error_cases {t : PyType} {s : String} {e : PyErr}
    (h : convertValue t s = .error e) :
    e = PyErr.valueError ∨ e = PyErr.typeNotCallable := by
  unfold convertValue at h
  split at h
  · exact absurd h (by simp)
  · match t with
    | .base .bool => exact absurd h (by simp [callTypeConstructor])
    | .base .str => exact absurd h (by simp [callTypeConstructor])
    | .base .int =>
      rcases hp : pyIntOfString s with _ | n
      · simp [callTypeConstructor, hp] at h
        exact Or.inl h.symm
      · simp [callTypeConstructor, hp] at h
    | .opt bt =>
      simp [callTypeConstructor] at h
      exact Or.inr h.symm

lemma convertFields_ne_unknownFieldNames :
    ∀ (fields : List FieldDecl) (src : List (String × String)) (u : List String),
      convertFields fields src ≠ .error (.unknownFieldNames u)
  | [], _, _ => by simp [convertFields]
  | f :: fs, src, u => by
    intro h
    simp only [convertFields] at h
    split at h
    · split at h
      · rename_i e hconv
        rcases convertValue_error_cases hconv with rfl | rfl <;> simp at h
      · split at h
        · rename_i e hrec
          cases h
          exact convertFields_ne_unknownFieldNames fs src u hrec
        · simp at h
    · exact convertFields_ne_unknownFieldNames fs src u h

lemma convertFields_ok (v : FieldDecl → PyVal) :
    ∀ (fields : List FieldDecl) (src : List (String × String)),
      (∀ f ∈ fields, ∃ s, src.lookup f.name = some s ∧ convertValue f.type s = .ok (v f)) →
      convertFields fields src = .ok (fields.map (fun f => (f.name, v f)))
  | [], _, _ => rfl
  | f :: fs, src, h => by
    obtain ⟨s, hs, hconv⟩ := h f (List.mem_cons_self f fs)
    have ih := convertFields_ok v fs src (fun g hg => h g (List.mem_cons_of_mem f hg))
    simp only [convertFields, hs, hconv, ih, List.map_cons]

/-! ### Association-list lemmas -/

lemma lookup_map_pair {β : Type} (g : FieldDecl → β) :
    ∀ (fields : List FieldDecl), (fields.map FieldDecl.name).Nodup →
      ∀ f ∈ fields, (fields.map (fun x => (x.name, g x))).lookup f.name = some (g f)
  | [], _, f, hf => absurd hf (List.not_mem_nil f)
  | x :: xs, hnodup, f, hf => by
    have hnd : (∀ y ∈ xs, ¬y.name = x.name) ∧ (xs.map FieldDecl.name).Nodup := by
      simpa using hnodup
    rw [List.map_cons, List.lookup_cons]
    rcases List.mem_cons.mp hf with rfl | hmem
    · simp
    · have hbeq : (f.name == x.name) = false := beq_eq_false_iff_ne.mpr (hnd.1 f hmem)
      simp only [hbeq]
      exact lookup_map_pair g xs hnd.2 f hmem

lemma contains_iff_mem {l : List String} {a : String} :
    l.contains a = true ↔ a ∈ l := by
  rw [List.contains_iff_exists_mem_beq]
  simp

lemma lookup_updateAssoc_self {β : Type} :
    ∀ (m : List (String × β)) (k : String) (v : β),
      (updateAssoc m k v).lookup k = some v
  | [], k, v => by simp [updateAssoc, List.lookup]
  | p :: ps, k, v => by
    by_cases hk : p.1 = k
    · simp [updateAssoc, hk, List.lookup]
    · have hbeq : (k == p.1) = false := beq_eq_false_iff_ne.mpr (fun h => hk h.symm)
      simp only [updateAssoc, if_neg hk, List.lookup, hbeq]
      exact lookup_updateAssoc_self ps k v

lemma lookup_updateAssoc_ne {β : Type} :
    ∀ (m : List (String × β)) (k k' : String) (v : β), k' ≠ k →
      (updateAssoc m k v).lookup k' = m.lookup k'
  | [], k, k', v, h => by
    simp [updateAssoc, List.lookup, beq_eq_false_iff_ne.mpr h]
  | p :: ps, k, k', v, h => by
    by_cases hk : p.1 = k
    · have hbeq : (k' == k) = false := beq_eq_false_iff_ne.mpr h
      have hbeq' : (k' == p.1) = false := hk ▸ hbeq
      simp only [updateAssoc, if_pos hk, List.lookup, hbeq, hbeq', hk]
    · simp only [updateAssoc, if_neg hk, List.lookup]
      cases hc : k' == p.1
      · exact lookup_updateAssoc_ne ps k k' v h
      · rfl

lemma lookup_foldl_update_notmem (stamp : ConfigField → List (String × String)) :
    ∀ (fields : List ConfigField) (ps : ParserState) (k : String),
      k ∉ fields.map ConfigField.name →
      (fields.foldl (fun st x => updateAssoc st x.name (stamp x)) ps).lookup k =
        ps.lookup k
  | [], _, _, _ => rfl
  | x :: xs, ps, k, h => by
    have hx : k ≠ x.name := fun he => h (by simp [he])
    have hxs : k ∉ xs.map ConfigField.name := fun hm => h (by simp; right; simpa using hm)
    rw [List.foldl_cons, lookup_foldl_update_notmem stamp xs _ k hxs,
      lookup_updateAssoc_ne ps x.name k (stamp x) hx]

lemma lookup_foldl_update_mem (stamp : ConfigField → List (String × String)) :
    ∀ (fields : List ConfigField) (ps : ParserState),
      (fields.map ConfigField.name).Nodup →
      ∀ fd ∈ fields,
        (fields.foldl (fun st x => updateAssoc st x.name (stamp x)) ps).lookup fd.name =
          some (stamp fd)
  | [], _, _, fd, hfd => absurd hfd (List.not_mem_nil fd)
  | x :: xs, ps, hnodup, fd, hfd => by
    have hnd : (∀ y ∈ xs, ¬y.name = x.name) ∧ (xs.map ConfigField.name).Nodup := by
      simpa using hnodup
    rw [List.foldl_cons]
    rcases List.mem_cons.mp hfd with rfl | hmem
    · have hnotin : fd.name ∉ xs.map ConfigField.name := by
        intro hmm
        obtain ⟨y, hy, he⟩ := List.mem_map.mp hmm
        exact hnd.1 y hy he
      rw [lookup_foldl_update_notmem stamp xs _ fd.name hnotin]
      exact lookup_updateAssoc_self ps fd.name (stamp fd)
    · exact lookup_foldl_update_mem stamp xs _ hnd.2 fd hmem

/-! ### `convert_field_types_from_strings` filtering lemmas -/

lemma mem_unknown_iff (fields : List FieldDecl) (src : List (String × String))
    (k : String) :
    k ∈ unknownKeys fields src ↔
      k ∈ src.map Prod.fst ∧ k ∉ fields.map FieldDecl.name := by
  rw [unknownKeys, List.mem_dedup, List.mem_filter]
  constructor
  · rintro ⟨h1, h2⟩
    refine ⟨h1, fun hmem => ?_⟩
    rw [Bool.not_eq_true'] at h2
    rw [contains_iff_mem.mpr hmem] at h2
    cases h2
  · rintro ⟨h1, h2⟩
    refine ⟨h1, ?_⟩
    rw [Bool.not_eq_true']
    cases hc : (fields.map FieldDecl.name).contains k with
    | false => rfl
    | true => exact absurd (contains_iff_mem.mp hc) h2

lemma convert_fts_all_known (fields : List FieldDecl) (src : List (String × String))
    (h : ∀ k ∈ src.map Prod.fst, k ∈ fields.map FieldDecl.name) :
    convert_field_types_from_strings fields src = convertFields fields src := by
  unfold convert_field_types_from_strings
  rw [if_pos]
  rw [unknownKeys, List.isEmpty_iff, List.dedup_eq_nil, List.filter_eq_nil_iff]
  intro k hk
  have hc : (fields.map FieldDecl.name).contains k = true := contains_iff_mem.mpr (h k hk)
  rw [Bool.not_eq_true', hc]
  simp

/-- `True` exactly on the unknown-field-names failure (the `KeyError` of
`convert_field_types_from_strings`). -/
def isUnknownFieldErr {α : Type} : Except PyErr α → Bool
  | .error (.unknownFieldNames _) => true
  | _ => false

/-- `True` exactly on the missing-required-field failure (the `TypeError`
of `CheckNoneNonOptionalFieldsMixin.__post_init__`). -/
def isMissingRequiredErr {α : Type} : Except PyErr α → Bool
  | .error (.missingRequiredField _) => true
  | _ => false

/-! ## Claims -/

/-- C2, counterexample: boolean string-to-value conversion is NOT
case-insensitive on `"true"`.  The raw value `"tRuE"` is a letter casing of
`"true"` (its character-wise lowercasing is exactly `"true"`), yet a field
declared exactly `bool` converts it to `False`, while the spellings the
code does enumerate convert to `True`. -/
theorem counterexample_C2_not_case_insensitive :
    convertValue (.base .bool) "tRuE" = .ok (.vBool false) ∧
    "tRuE".data.map Char.toLower = "true".data ∧
    convertValue (.base .bool) "true" = .ok (.vBool true) ∧
    convertValue (.base .bool) "True" = .ok (.vBool true) := by
  refine ⟨by decide, by decide, by decide, by decide⟩

/-- C2, amended: for a field declared exactly `bool`, conversion yields
`True` exactly when the raw string is `"1"`, `"true"`, `"True"`, or
`"TRUE"` — the three literal spellings of the source tuple, not every
letter casing (and the tuple's int member `1` can never equal a raw string
value).  For every other declared type, conversion calls the declared type
as a single-argument constructor on the raw string. -/
theorem claim_C2_truthy_tokens_and_constructor (t : PyType) (s : String) :
    (convertValue (.base .bool) s = .ok (.vBool true) ↔
      s = "1" ∨ s = "true" ∨ s = "True" ∨ s = "TRUE") ∧
    (t ≠ .base .bool → convertValue t s = callTypeConstructor t s) := by
  constructor
  · show Except.ok (PyVal.vBool (truthyTokens.contains s)) = .ok (.vBool true) ↔ _
    simp [truthyTokens]
  · intro ht
    unfold convertValue
    rw [if_neg ht]

/-- C2, witness for the amended claim. -/
theorem claim_C2_truthy_tokens_witness :
    convertValue (.base .bool) "TRUE" = .ok (.vBool true) ∧
    convertValue (.base .int) "7" = callTypeConstructor (.base .int) "7" :=
  ⟨(claim_C2_truthy_tokens_and_constructor (.base .int) "TRUE").1.mpr
      (Or.inr (Or.inr (Or.inr rfl))),
    (claim_C2_truthy_tokens_and_constructor (.base .int) "7").2 (by decide)⟩

/-- C9: conversion of a field declared exactly `bool` is total over all
raw strings — it always returns `ok` of the truthy-token membership, never
an error — and raw values outside the recognized token set (for example
`"yes"`, `"on"`, `"tRuE"`) silently convert to `False`.  The special case
does not apply to a field declared `Optional[bool]`: that annotation takes
the generic type-as-constructor path, which fails with a `TypeError`
because `typing.Optional[...]` is not callable. -/
theorem claim_C9_bool_conversion_total (s : String) :
    convertValue (.base .bool) s = .ok (.vBool (truthyTokens.contains s)) ∧
    convertValue (.opt .bool) s = callTypeConstructor (.opt .bool) s ∧
    convertValue (.base .bool) "yes" = .ok (.vBool false) ∧
    convertValue (.base .bool) "on" = .ok (.vBool false) ∧
    convertValue (.base .bool) "tRuE" = .ok (.vBool false) ∧
    convertValue (.opt .bool) "true" = .error .typeNotCallable :=
  ⟨rfl, rfl, by decide, by decide, by decide, by decide⟩

/-- C3: a raw section mapping containing keys that are not declared field
names always fails with the unknown-field-names `KeyError`, whose payload
is exactly the set difference between the source keys and the declared
field names — all offenders batch-reported at once; a raw mapping whose
keys are all declared field names never produces that failure. -/
theorem claim_C3_unknown_keys_batch (fields : List FieldDecl)
    (src : List (String × String)) :
    ((∃ k ∈ src.map Prod.fst, k ∉ fields.map FieldDecl.name) →
      convert_field_types_from_strings fields src =
        .error (.unknownFieldNames (unknownKeys fields src))) ∧
    (∀ k, k ∈ unknownKeys fields src ↔
      (k ∈ src.map Prod.fst ∧ k ∉ fields.map FieldDecl.name)) ∧
    ((∀ k ∈ src.map Prod.fst, k ∈ fields.map FieldDecl.name) →
      isUnknownFieldErr (convert_field_types_from_strings fields src) = false) := by
  refine ⟨?_, mem_unknown_iff fields src, ?_⟩
  · rintro ⟨k, hk, hnk⟩
    have hne : unknownKeys fields src ≠ [] := by
      intro hnil
      have hmem := (mem_unknown_iff fields src k).mpr ⟨hk, hnk⟩
      rw [hnil] at hmem
      exact List.not_mem_nil k hmem
    unfold convert_field_types_from_strings
    rw [if_neg (fun h => hne (List.isEmpty_iff.mp h))]
  · intro h
    rw [convert_fts_all_known fields src h]
    cases hc : convertFields fields src with
    | ok v => rfl
    | error e =>
      cases e with
      | unknownFieldNames u => exact absurd hc (convertFields_ne_unknownFieldNames fields src u)
      | _ => rfl

/-- C3, witness. -/
theorem claim_C3_unknown_keys_witness :
    convert_field_types_from_strings [⟨"a", .base .str⟩]
        [("a", "x"), ("b", "y"), ("c", "z")] =
      .error (.unknownFieldNames
        (unknownKeys [⟨"a", .base .str⟩] [("a", "x"), ("b", "y"), ("c", "z")])) ∧
    isUnknownFieldErr (convert_field_types_from_strings [⟨"a", .base .str⟩]
        [("a", "x")]) = false :=
  ⟨(claim_C3_unknown_keys_batch [⟨"a", .base .str⟩]
        [("a", "x"), ("b", "y"), ("c", "z")]).1 ⟨"b", by decide, by decide⟩,
    (claim_C3_unknown_keys_batch [⟨"a", .base .str⟩] [("a", "x")]).2.2 (by decide)⟩

lemma isAbsent_eq_false {v : PyVal} (h : v ≠ PyVal.none) : v.isAbsent = false := by
  cases v with
  | none => exact absurd rfl h
  | vBool b => rfl
  | vInt i => rfl
  | vStr s => rfl

/-- C4: constructing a Section Instance with a field of non-optional
declared type left absent (`None`) fails with the missing-required-field
`TypeError`; when every required field holds a non-absent value — falsy
values such as `0` or `""` included — construction succeeds; and fields of
optional declared type may stay absent without failure.  The same shared
mixin check guards Config Instances: a section field left absent fails the
same way (section annotations are never optional), and a config record
with every section supplied constructs successfully. -/
theorem claim_C4_required_vs_optional (schema : SectionSchema) (sn : String)
    (hname : schema.sectionName = .fixed sn) (provided : SectionVal)
    (cfg : ConfigSchema) (cprov : List (String × SectionVal))
    (ps : ParserState) (cp : Option String) :
    ((∃ f ∈ schema.fields, is_optional_type f.type = false ∧
        fieldValue provided f = PyVal.none) →
      isMissingRequiredErr (mkSectionInstance schema provided) = true) ∧
    ((∀ f ∈ schema.fields, is_optional_type f.type = true ∨
        fieldValue provided f ≠ PyVal.none) →
      mkSectionInstance schema provided =
        .ok (schema.fields.map (fun f => (f.name, fieldValue provided f)))) ∧
    ((∃ fd ∈ cfg.fields, (cprov.lookup fd.name).isNone = true) →
      isMissingRequiredErr (mkConfigInstance cfg cprov ps cp) = true) ∧
    ((∀ fd ∈ cfg.fields, (cprov.lookup fd.name).isSome = true) →
      mkConfigInstance cfg cprov ps cp = .ok ⟨cfg, cprov, ps, Option.none⟩) := by
  have hnotauto : ¬(schema.sectionName = SectionName.auto) := by
    rw [hname]
    exact fun h => SectionName.noConfusion h
  refine ⟨?_, ?_, ?_, ?_⟩
  · rintro ⟨f, hf, hopt, habs⟩
    have hsome : (findMissingRequired schema.fields
        (fun g => (fieldValue provided g).isAbsent)
        (fun g => is_optional_type g.type)).isSome := by
      rw [findMissingRequired, List.find?_isSome]
      exact ⟨f, hf, by rw [habs, hopt]; rfl⟩
    obtain ⟨g, hg⟩ := Option.isSome_iff_exists.mp hsome
    unfold mkSectionInstance
    rw [if_neg hnotauto, hg]
    rfl
  · intro h
    have hnone : findMissingRequired schema.fields
        (fun g => (fieldValue provided g).isAbsent)
        (fun g => is_optional_type g.type) = Option.none := by
      rw [findMissingRequired, List.find?_eq_none]
      intro f hf
      rcases h f hf with hopt | hval
      · simp [hopt]
      · simp [isAbsent_eq_false hval]
    unfold mkSectionInstance
    rw [if_neg hnotauto, hnone]
  · rintro ⟨fd, hfd, habs⟩
    have hsome : (findMissingRequired cfg.fields
        (fun x => (cprov.lookup x.name).isNone) (fun _ => false)).isSome := by
      rw [findMissingRequired, List.find?_isSome]
      exact ⟨fd, hfd, by rw [habs]; rfl⟩
    obtain ⟨g, hg⟩ := Option.isSome_iff_exists.mp hsome
    unfold mkConfigInstance
    rw [hg]
    rfl
  · intro h
    have hnone : findMissingRequired cfg.fields
        (fun x => (cprov.lookup x.name).isNone) (fun _ => false) = Option.none := by
      rw [findMissingRequired, List.find?_eq_none]
      intro fd hfd
      have hs := h fd hfd
      cases hl : cprov.lookup fd.name with
      | none => rw [hl] at hs; exact absurd hs (by decide)
      | some v => simp [hl]
    unfold mkConfigInstance
    rw [hnone]

/-- C4, witness: the required field `a` absent fails, `a = 0` (falsy)
succeeds, the `Optional[bool]` field `d` may stay absent, and the same
check guards config records. -/
theorem claim_C4_required_vs_optional_witness :
    isMissingRequiredErr (mkSectionInstance
        ⟨.fixed "s", [⟨"a", .base .int⟩, ⟨"d", .opt .bool⟩]⟩ []) = true ∧
    mkSectionInstance ⟨.fixed "s", [⟨"a", .base .int⟩, ⟨"d", .opt .bool⟩]⟩
        [("a", .vInt 0)] =
      .ok [("a", .vInt 0), ("d", PyVal.none)] ∧
    isMissingRequiredErr
      (mkConfigInstance ⟨[⟨"main", ⟨.fixed "main", []⟩⟩]⟩ [] [] Option.none) = true ∧
    mkConfigInstance ⟨[⟨"main", ⟨.fixed "main", []⟩⟩]⟩ [("main", [])] []
        Option.none =
      .ok ⟨⟨[⟨"main", ⟨.fixed "main", []⟩⟩]⟩, [("main", [])], [], Option.none⟩ := by
  refine ⟨?_, ?_, ?_, ?_⟩
  · exact (claim_C4_required_vs_optional
      ⟨.fixed "s", [⟨"a", .base .int⟩, ⟨"d", .opt .bool⟩]⟩ "s" rfl []
      ⟨[]⟩ [] [] Option.none).1 (by decide)
  · exact ((claim_C4_required_vs_optional
      ⟨.fixed "s", [⟨"a", .base .int⟩, ⟨"d", .opt .bool⟩]⟩ "s" rfl
      [("a", .vInt 0)] ⟨[]⟩ [] [] Option.none).2.1 (by decide)).trans (by decide)
  · exact (claim_C4_required_vs_optional ⟨.fixed "s", []⟩ "s" rfl []
      ⟨[⟨"main", ⟨.fixed "main", []⟩⟩]⟩ [] [] Option.none).2.2.1 (by decide)
  · exact (claim_C4_required_vs_optional ⟨.fixed "s", []⟩ "s" rfl []
      ⟨[⟨"main", ⟨.fixed "main", []⟩⟩]⟩ [("main", [])] []
      Option.none).2.2.2 (by decide)

/-- C5, counterexample: constructing a record whose two required fields
`a` and `b` are both absent fails naming only `a` — the first offender in
declaration order — although `b` is equally required and absent; the
failure is not a batch report. -/
theorem counterexample_C5_first_fail_only :
    mkSectionInstance ⟨.fixed "s", [⟨"a", .base .int⟩, ⟨"b", .base .int⟩]⟩ [] =
      .error (.missingRequiredField "a") ∧
    is_optional_type (PyType.base .int) = false ∧
    fieldValue [] ⟨"b", .base .int⟩ = PyVal.none := by
  refine ⟨by decide, rfl, rfl⟩

/-- C5, amended: the missing-required-field failure names exactly the
first absent required field in declaration order (the `__post_init__` loop
raises at its first offender), not all of them. -/
theorem claim_C5_first_missing_named (schema : SectionSchema) (sn : String)
    (hname : schema.sectionName = .fixed sn) (provided : SectionVal)
    (f : FieldDecl)
    (hfind : schema.fields.find?
        (fun g => (fieldValue provided g).isAbsent && !is_optional_type g.type) =
      some f) :
    mkSectionInstance schema provided = .error (.missingRequiredField f.name) := by
  have hnotauto : ¬(schema.sectionName = SectionName.auto) := by
    rw [hname]
    exact fun h => SectionName.noConfusion h
  unfold mkSectionInstance
  rw [if_neg hnotauto,
    show findMissingRequired schema.fields
        (fun g => (fieldValue provided g).isAbsent)
        (fun g => is_optional_type g.type) = some f from hfind]

/-- C5, witness for the amended claim. -/
theorem claim_C5_first_missing_witness :
    mkSectionInstance ⟨.fixed "t", [⟨"x", .base .str⟩, ⟨"y", .base .str⟩]⟩ [] =
      .error (.missingRequiredField "x") :=
  claim_C5_first_missing_named ⟨.fixed "t", [⟨"x", .base .str⟩, ⟨"y", .base .str⟩]⟩
    "t" rfl [] ⟨"x", .base .str⟩ (by decide)

/-- C6: a Config Schema with section fields whose Section Schemas declare
fixed names different from the fields' own names fails schema preparation
with the schema-name-mismatch `ValueError` — so no Config Instance of that
schema is ever constructed — and the error payload lists every offending
field name (batch, not only the first). -/
theorem claim_C6_schema_name_mismatch_batch (cfg : ConfigSchema) :
    ((∃ fd ∈ cfg.fields, fieldNameMismatch fd = true) →
      config_dataclass cfg = .error (.schemaNameMismatch (mismatchedNames cfg))) ∧
    (∀ nm, nm ∈ mismatchedNames cfg ↔
      ∃ fd ∈ cfg.fields, fd.name = nm ∧ fieldNameMismatch fd = true) := by
  constructor
  · rintro ⟨fd, hfd, hmis⟩
    have hne : mismatchedNames cfg ≠ [] := by
      intro hnil
      have hmem : fd.name ∈ mismatchedNames cfg := by
        rw [mismatchedNames, List.mem_dedup]
        exact List.mem_map_of_mem ConfigField.name (List.mem_filter.mpr ⟨hfd, hmis⟩)
      rw [hnil] at hmem
      exact List.not_mem_nil _ hmem
    unfold config_dataclass
    rw [if_neg (fun h => hne (List.isEmpty_iff.mp h))]
  · intro nm
    rw [mismatchedNames, List.mem_dedup, List.mem_map]
    constructor
    · rintro ⟨fd, hfd, rfl⟩
      have hsplit := List.mem_filter.mp hfd
      exact ⟨fd, hsplit.1, rfl, hsplit.2⟩
    · rintro ⟨fd, hfd, rfl, hmis⟩
      exact ⟨fd, List.mem_filter.mpr ⟨hfd, hmis⟩, rfl⟩

/-- C6, witness: both offending fields are reported. -/
theorem claim_C6_schema_name_mismatch_witness :
    config_dataclass ⟨[⟨"one", ⟨.fixed "uno", []⟩⟩, ⟨"two", ⟨.fixed "dos", []⟩⟩]⟩ =
      .error (.schemaNameMismatch (mismatchedNames
        ⟨[⟨"one", ⟨.fixed "uno", []⟩⟩, ⟨"two", ⟨.fixed "dos", []⟩⟩]⟩)) :=
  (claim_C6_schema_name_mismatch_batch
    ⟨[⟨"one", ⟨.fixed "uno", []⟩⟩, ⟨"two", ⟨.fixed "dos", []⟩⟩]⟩).1 (by decide)

/-- C7: whenever schema preparation succeeds, every section field of the
prepared schema carries a resolved section name that is no longer the
auto-name sentinel and equals the owning field's name: sentinel-named
sections were stamped with the field name, and fixed-named sections
already matched it. -/
theorem claim_C7_resolved_names (cfg cfg' : ConfigSchema)
    (h : config_dataclass cfg = .ok cfg') :
    ∀ fd ∈ cfg'.fields, fd.sect.sectionName = .fixed fd.name := by
  unfold config_dataclass at h
  split at h
  · rename_i hempty
    cases h
    have hnil : (cfg.fields.filter fieldNameMismatch) = [] := by
      have h1 := List.isEmpty_iff.mp hempty
      rw [mismatchedNames] at h1
      exact List.map_eq_nil_iff.mp ((List.dedup_eq_nil _).mp h1)
    have hall := List.filter_eq_nil_iff.mp hnil
    intro fd' hfd'
    obtain ⟨fd, hfd, rfl⟩ := List.mem_map.mp hfd'
    have hm := hall fd hfd
    cases hs : fd.sect.sectionName with
    | auto => simp [stampField, hs]
    | fixed n =>
      rw [Bool.not_eq_true, fieldNameMismatch, hs] at hm
      have hn : n = fd.name := by simpa using hm
      simp [stampField, hs, hn]
  · exact absurd h (by simp)

/-- C7, witness: an auto-named section is stamped with its field's name. -/
theorem claim_C7_resolved_names_witness :
    (ConfigField.mk "alpha" ⟨.fixed "alpha", []⟩).sect.sectionName =
      .fixed (ConfigField.mk "alpha" ⟨.fixed "alpha", []⟩).name :=
  claim_C7_resolved_names
    ⟨[⟨"alpha", ⟨.auto, []⟩⟩, ⟨"beta", ⟨.fixed "beta", [⟨"x", .opt .str⟩]⟩⟩]⟩
    ⟨[⟨"alpha", ⟨.fixed "alpha", []⟩⟩, ⟨"beta", ⟨.fixed "beta", [⟨"x", .opt .str⟩]⟩⟩]⟩
    (by decide) ⟨"alpha", ⟨.fixed "alpha", []⟩⟩ (by decide)

/-- Example schema for the retained-path scenario: one `main` section. -/
def c1Schema : ConfigSchema :=
  ⟨[⟨"main", ⟨.fixed "main", [⟨"host", .base .str⟩, ⟨"active", .base .bool⟩]⟩⟩]⟩

/-- Example file system: `app.ini` exists and parses to one `main`
section. -/
def c1Files : FileSys :=
  [("app.ini", [("main", [("host", "localhost"), ("active", "true")])])]

/-- C1, code bug: `ConfigBase.load` called with exactly one explicit path
does NOT retain that path.  `__post_init__` assigns
`self._config_path = None` (meta.py line 230), never storing the
`config_path` init-only argument that `load` carefully computes and passes
— contradicting `save`'s own documentation ("derived from the .ini file
path used to initialize the instance").  Consequently a `save()` with no
path argument fails with the no-config-path `ValueError` even immediately
after a successful single-explicit-path load, where the claim requires it
to write to the retained load-time path. -/
theorem claim_C1_load_path_not_retained :
    (ConfigBase.load c1Schema (.single "app.ini") c1Files).map
        (fun c => c.config_path) = .ok Option.none ∧
    (ConfigBase.load c1Schema (.single "app.ini") c1Files).map
        (fun c => (ConfigBase.save c Option.none (fun _ => true)).2) =
      .ok (Except.error PyErr.noConfigPath) :=
  ⟨rfl, rfl⟩

/-- C10: `save` resolves the path, then stamps the stringified raw section
of every declared section field into the retained parser state, and only
afterwards attempts to open and write the destination file.  When the
write fails, the returned in-memory state therefore already holds the
fully stamped parser — no rollback — and, under pairwise-distinct field
names, every declared field's stringified section is present in it. -/
theorem claim_C10_stamp_before_failed_write (c : ConfigInstance) (p : String)
    (writable : String → Bool) (hw : writable p = false) :
    ConfigBase.save c (some p) writable =
      ({ c with parserState := stampAllSections c }, .error (.ioError p)) ∧
    ((c.schema.fields.map ConfigField.name).Nodup →
      ∀ fd ∈ c.schema.fields,
        (stampAllSections c).lookup fd.name =
          some (to_config_section fd.sect (configFieldValue c fd.name)).data) := by
  constructor
  · unfold ConfigBase.save
    simp [hw]
  · intro hnodup fd hfd
    exact lookup_foldl_update_mem
      (fun x => (to_config_section x.sect (configFieldValue c x.name)).data)
      c.schema.fields c.parserState hnodup fd hfd

/-- Example section schema for the save-failure scenario. -/
def c10Schema : SectionSchema := ⟨.fixed "main", [⟨"host", .base .str⟩]⟩

/-- Example loaded instance for the save-failure scenario: empty parser
state, one populated section. -/
def c10Instance : ConfigInstance :=
  ⟨⟨[⟨"main", c10Schema⟩]⟩, [("main", [("host", .vStr "h")])], [], Option.none⟩

/-- C10, witness: a failing write still leaves the parser state stamped. -/
theorem claim_C10_stamp_witness :
    ConfigBase.save c10Instance (some "out.ini") (fun _ => false) =
      ({ c10Instance with parserState := stampAllSections c10Instance },
        .error (.ioError "out.ini")) ∧
    (stampAllSections c10Instance).lookup "main" =
      some (to_config_section c10Schema (configFieldValue c10Instance "main")).data := by
  have h := claim_C10_stamp_before_failed_write c10Instance "out.ini" (fun _ => false) rfl
  exact ⟨h.1, h.2 (by decide) ⟨"main", c10Schema⟩ (by decide)⟩

lemma wellTyped_base_ne_none {bt : PyBaseType} {v : PyVal}
    (h : wellTypedVal (.base bt) v = true) : v ≠ PyVal.none := by
  intro hv
  subst hv
  cases bt <;> exact absurd h (by decide)

/-- C8: the section round trip.  For any Section Schema with a fixed
resolved name, pairwise-distinct field names, and declared field types
among exactly `bool`, `int`, `str` — the types supporting both
construction from a string and `str()` stringification — converting a
well-typed instance to a raw section and converting that raw section back
through `from_config_section` reproduces an instance equal in every field
value. -/
theorem claim_C8_round_trip (schema : SectionSchema) (sn : String)
    (hname : schema.sectionName = .fixed sn)
    (hnodup : (schema.fields.map FieldDecl.name).Nodup)
    (val : FieldDecl → PyVal)
    (hsupp : ∀ f ∈ schema.fields,
      f.type = .base .bool ∨ f.type = .base .int ∨ f.type = .base .str)
    (hwt : ∀ f ∈ schema.fields, wellTypedVal f.type (val f) = true) :
    from_config_section schema
        (to_config_section schema (schema.fields.map (fun f => (f.name, val f)))) =
      .ok (schema.fields.map (fun f => (f.name, val f))) := by
  have hnotauto : ¬(schema.sectionName = SectionName.auto) := by
    rw [hname]
    exact fun h => SectionName.noConfusion h
  have hdata : (to_config_section schema
        (schema.fields.map (fun f => (f.name, val f)))).data =
      schema.fields.map (fun f => (f.name, pyStr (val f))) := by
    show (schema.fields.map (fun f => (f.name, val f))).map
        (fun p => (p.1, pyStr p.2)) = _
    rw [List.map_map]
    rfl
  have hkeys : ∀ k ∈ (schema.fields.map (fun f => (f.name, pyStr (val f)))).map
      Prod.fst, k ∈ schema.fields.map FieldDecl.name := by
    intro k hk
    rw [List.map_map] at hk
    obtain ⟨f, hf, hfk⟩ := List.mem_map.mp hk
    subst hfk
    exact List.mem_map_of_mem FieldDecl.name hf
  have hconv : convert_field_types_from_strings schema.fields
      (schema.fields.map (fun f => (f.name, pyStr (val f)))) =
      .ok (schema.fields.map (fun f => (f.name, val f))) := by
    rw [convert_fts_all_known schema.fields _ hkeys]
    apply convertFields_ok
    intro f hf
    exact ⟨pyStr (val f),
      lookup_map_pair (fun x => pyStr (val x)) schema.fields hnodup f hf,
      convertValue_pyStr_roundtrip (hsupp f hf) (hwt f hf)⟩
  have hfv : ∀ f ∈ schema.fields,
      fieldValue (schema.fields.map (fun g => (g.name, val g))) f = val f := by
    intro f hf
    unfold fieldValue
    rw [lookup_map_pair val schema.fields hnodup f hf]
  have hnone : findMissingRequired schema.fields
      (fun g => (fieldValue (schema.fields.map (fun x => (x.name, val x))) g).isAbsent)
      (fun g => is_optional_type g.type) = Option.none := by
    rw [findMissingRequired, List.find?_eq_none]
    intro f hf
    have hne : val f ≠ PyVal.none := by
      rcases hsupp f hf with ht | ht | ht <;>
        exact wellTyped_base_ne_none (ht ▸ hwt f hf)
    rw [hfv f hf]
    simp [isAbsent_eq_false hne]
  have hmk : mkSectionInstance schema
      (schema.fields.map (fun f => (f.name, val f))) =
      .ok (schema.fields.map (fun f => (f.name, val f))) := by
    unfold mkSectionInstance
    rw [if_neg hnotauto, hnone]
    exact congrArg Except.ok (List.map_congr_left (fun f hf => by rw [hfv f hf]))
  unfold from_config_section
  rw [if_neg (fun h => h rfl)]
  rw [hdata, hconv]
  exact hmk

/-- Example schema for the round-trip witness: the spec's `Server`
scenario with all-required fields. -/
def c8Schema : SectionSchema :=
  ⟨.fixed "server",
    [⟨"host", .base .str⟩, ⟨"port", .base .int⟩, ⟨"debug", .base .bool⟩]⟩

/-- Example well-typed values for the round-trip witness. -/
def c8Values (f : FieldDecl) : PyVal :=
  if f.name = "host" then .vStr "localhost"
  else if f.name = "port" then .vInt 8080
  else .vBool true

/-- C8, witness. -/
theorem claim_C8_round_trip_witness :
    from_config_section c8Schema
        (to_config_section c8Schema
          (c8Schema.fields.map (fun f => (f.name, c8Values f)))) =
      .ok (c8Schema.fields.map (fun f => (f.name, c8Values f))) :=
  claim_C8_round_trip c8Schema "server" rfl (by decide) c8Values (by decide)
    (by decide)
